import Mathlib

/-!
Shallow embedding of `cachelib/__init__.py` (the `CacheBase` memoization
wrapper and its in-process backends), together with theorems checking the
repository's specification claims against it.

Python values that flow through `*args` / `**kwargs` are modelled by `PyVal`
(string / int / bool), which supports Python's `str()` rendering and
truthiness.  Time instants and second counts are modelled by `ℚ`
(the code uses float seconds from `total_seconds()`).  `md5().hexdigest()`
is modelled by an arbitrary function of the concatenation of all the bytes
fed to `update` — every theorem about keys is proved for every such
function.  Exceptions are modelled by `Except` with an explicit Python
exception type `PyExc`.
-/

namespace Cachelib

/-- A Python value usable as a positional or keyword argument. -/
inductive PyVal : Type
  | str (s : String)
  | int (n : Int)
  | bool (b : Bool)
deriving DecidableEq

/-- Python `str()` on a `PyVal`. -/
def pyStr : PyVal → String
  | .str s => s
  | .int n => toString n
  | .bool b => if b then "True" else "False"

/-- Python truthiness of a `PyVal` (`bool(v)`). -/
def truthy : PyVal → Bool
  | .str s => s ≠ ""
  | .int n => n ≠ 0
  | .bool b => b

/-- Association-list lookup, modelling Python `dict.get` / `dict[...]`
(first binding wins; dicts never hold duplicate keys). -/
def plookup {α : Type} : List (String × α) → String → Option α
  | [], _ => none
  | (k', v) :: rest, k => if k' = k then some v else plookup rest k

/-- `d[key] = value` on a Python dict modelled as an association list:
replace the existing binding in place, else append. -/
def upd {α : Type} : List (String × α) → String → α → List (String × α)
  | [], k, v => [(k, v)]
  | (k', v') :: rest, k, v =>
    if k' = k then (k, v) :: rest else (k', v') :: upd rest k v

/-- `del d[key]` on a dict modelled as an association list (removes the
binding when present, identity when absent; the `KeyError` raised by Python
on a missing key is modelled separately where the code's behaviour
depends on it). -/
def delk {α : Type} : List (String × α) → String → List (String × α)
  | [], _ => []
  | (k', v') :: rest, k => if k' = k then rest else (k', v') :: delk rest k

/-- The key list of a dict (`d.keys()`), in insertion order. -/
def keysOf {α : Type} (l : List (String × α)) : List String :=
  l.map Prod.fst

/-- Cache-mode constant `CACHE = 1`. -/
def CACHE : Nat := 1

/-- Cache-mode constant `NOCACHE = 2`. -/
def NOCACHE : Nat := 2

/-- Cache-mode constant `PRECACHE = 3`. -/
def PRECACHE : Nat := 3

/-- Cache-mode constant `RECACHE = 4`. -/
def RECACHE : Nat := 4

/-- `default_cachefn(*args, **kwargs)`: inspects the three reserved control
flags in priority order `_precache > _nocache > _recache`, defaulting to
`CACHE`. -/
def default_cachefn (_args : List PyVal) (kwargs : List (String × PyVal)) : Nat :=
  if truthy ((plookup kwargs "_precache").getD (.bool false)) then PRECACHE
  else if truthy ((plookup kwargs "_nocache").getD (.bool false)) then NOCACHE
  else if truthy ((plookup kwargs "_recache").getD (.bool false)) then RECACHE
  else CACHE

/-- The three reserved control-flag keyword names stripped by
`key_from_args`. -/
def reservedFlags : List String := ["_precache", "_nocache", "_recache"]

/-- The kwargs dict with the reserved control flags removed
(the comprehension in `key_from_args`). -/
def strippedK (kwargs : List (String × PyVal)) : List (String × PyVal) :=
  kwargs.filter (fun p => !(reservedFlags.contains p.1))

/-- Python `sorted` on a list of strings (lexicographic code-point order,
matching `String`'s linear order). -/
def sortStrings (l : List String) : List String :=
  List.insertionSort (fun a b => a ≤ b) l

/-- The byte string fed to the md5 hash by the default key function:
`str(x)` for each positional argument in call order, then
`str(k) + str(kwargs[k])` for each keyword name `k` in sorted order. -/
def hashInput (args : List PyVal) (kwargs : List (String × PyVal)) : String :=
  String.join (args.map pyStr) ++
    String.join ((sortStrings (keysOf kwargs)).map
      (fun k => k ++ pyStr ((plookup kwargs k).getD (.str ""))))

/-- `arg_hash_gen(skip)`: returns the default key function.  `skip` is
accepted and ignored, exactly as in the source.  `h` models
`md5().hexdigest()` as a function of the concatenated update bytes. -/
def arg_hash_gen (h : String → String) (_skip : List String)
    (args : List PyVal) (kwargs : List (String × PyVal)) : String :=
  h (hashInput args kwargs)

/-- A canonical cache object: the dict with keys
`key, created, value, args, kwargs`. -/
structure Entry (V : Type) where
  key : String
  created : ℚ
  value : V
  args : List PyVal
  kwargs : List (String × PyVal)
deriving DecidableEq

/-- The configuration held by a `CacheBase` instance (`prefix` is the
namespace string; `binary` selects the `bytes()` coercion of the computed
value before storing). -/
structure CacheCfg (V : Type) where
  pfx : String
  timeout : ℚ
  grace : Option ℚ
  keyfn : List PyVal → List (String × PyVal) → String
  cachefn : List PyVal → List (String × PyVal) → Nat
  binary : Bool

/-- Truthiness of `self.grace` (`None` and `0` are falsy). -/
def graceTruthy : Option ℚ → Bool
  | none => false
  | some g => g ≠ 0

/-- `key_from_args`: strips the reserved control flags from kwargs and
applies the configured key function to the positional args and the
stripped kwargs. -/
def key_from_args {V : Type} (cfg : CacheCfg V) (args : List PyVal)
    (kwargs : List (String × PyVal)) : String × List (String × PyVal) :=
  let sk := strippedK kwargs
  (cfg.keyfn args sk, sk)

/-- A backend operation issued by the wrapper, for effect accounting. -/
inductive BOp : Type
  | get (k : String)
  | put (k : String)
  | exi (k : String)
  | del (k : String)
  | enum
deriving DecidableEq

/-- The dict of a `MemoryCache` instance: key ↦ canonical cache object. -/
abbrev Store (V : Type) := List (String × Entry V)

/-- Outcome of one invocation of the wrapped callable: the returned value
or propagated exception, the backend state afterwards, the backend
operations issued (in order), and how many times the wrapped function was
invoked. -/
structure CallResult (E V : Type) where
  result : Except E V
  state : Store V
  ops : List BOp
  fnCalls : Nat

/-- The recompute arm of the wrapper: call `fn`, and if it returns, build a
fresh canonical cache object with `created` = now (coercing the value with
`bin`, which models `bytes()`, when `binary` is set) and store it with
`update_cache`.  If `fn` raises, the exception propagates and nothing is
written. -/
def recomputeStep {E V : Type} (cfg : CacheCfg V) (bin : V → V)
    (fn : List PyVal → List (String × PyVal) → Except E V) (now : ℚ)
    (st : Store V) (args : List PyVal) (stripped_kwargs : List (String × PyVal))
    (key : String) (readOps : List BOp) : CallResult E V :=
  match fn args stripped_kwargs with
  | Except.error e =>
    { result := Except.error e, state := st, ops := readOps, fnCalls := 1 }
  | Except.ok v =>
    let value := if cfg.binary then bin v else v
    let entry : Entry V :=
      { key := key, created := now, value := value, args := args,
        kwargs := stripped_kwargs }
    { result := Except.ok value, state := upd st key entry,
      ops := readOps ++ [BOp.put key], fnCalls := 1 }

/-- One invocation of the wrapper returned by `CacheBase.__call__`,
instantiated with the `MemoryCache` backend (`load_cache` = dict get,
`update_cache` = dict set).  Mirrors the source: derive key and stripped
kwargs, derive the mode, bypass entirely on `NOCACHE`, skip the read on
`PRECACHE`, otherwise read; recompute when there is no entry, when
`diff > timeout`, or when mode is `RECACHE` with a truthy grace and
`timeout - grace < diff`; otherwise serve the cached value.  (The source
computes `diff = 1e9` when there is no cached object, but tests
`not cached` first, so branching on the option directly is equivalent.) -/
def wrap {E V : Type} (cfg : CacheCfg V) (bin : V → V)
    (fn : List PyVal → List (String × PyVal) → Except E V) (now : ℚ)
    (st : Store V) (args : List PyVal) (kwargs : List (String × PyVal)) :
    CallResult E V :=
  let key := (key_from_args cfg args kwargs).1
  let stripped_kwargs := (key_from_args cfg args kwargs).2
  let cachefnval := cfg.cachefn args kwargs
  if cachefnval = NOCACHE then
    { result := fn args stripped_kwargs, state := st, ops := [], fnCalls := 1 }
  else
    let cached : Option (Entry V) :=
      if cachefnval = PRECACHE then none else plookup st key
    let readOps : List BOp :=
      if cachefnval = PRECACHE then [] else [BOp.get key]
    match cached with
    | none => recomputeStep cfg bin fn now st args stripped_kwargs key readOps
    | some c =>
      let diff := now - c.created
      if cfg.timeout < diff then
        recomputeStep cfg bin fn now st args stripped_kwargs key readOps
      else if cachefnval = RECACHE ∧ graceTruthy cfg.grace = true ∧
          cfg.timeout - cfg.grace.getD 0 < diff then
        recomputeStep cfg bin fn now st args stripped_kwargs key readOps
      else
        { result := Except.ok c.value, state := st, ops := readOps,
          fnCalls := 0 }

/-- Whether an invocation reaches the recompute arm (`do_cache` ends up
true): mode is not `NOCACHE`, and either the read is skipped
(`PRECACHE`), or there is no entry, or hard expiry, or the `RECACHE`
grace condition fires. -/
def reaches_recompute {V : Type} (cfg : CacheCfg V) (now : ℚ) (st : Store V)
    (args : List PyVal) (kwargs : List (String × PyVal)) : Bool :=
  let key := (key_from_args cfg args kwargs).1
  let m := cfg.cachefn args kwargs
  if m = NOCACHE then false
  else
    match (if m = PRECACHE then none else plookup st key) with
    | none => true
    | some c =>
      decide (cfg.timeout < now - c.created) ||
        (decide (m = RECACHE) && graceTruthy cfg.grace &&
          decide (cfg.timeout - cfg.grace.getD 0 < now - c.created))

/-- The Python exception kinds this code can raise. -/
inductive PyExc : Type
  | exc (msg : String)
  | notImplementedError (msg : String)
  | fileNotFoundError (msg : String)
  | keyError (msg : String)
deriving DecidableEq

/-- Whether an exception is a `NotImplementedError`. -/
def isNotImplementedError : PyExc → Bool
  | .notImplementedError _ => true
  | _ => false

/-- Whether a computation's outcome is a raised `NotImplementedError`. -/
def raisesNotImplementedError {α : Type} : Except PyExc α → Bool
  | .error e => isNotImplementedError e
  | .ok _ => false

/-- `CacheBase.update_cache` (abstract base): `raise Exception("Not implemented")`. -/
def CacheBase_update_cache {V : Type} (_key : String) (_cache : Entry V) :
    Except PyExc Unit :=
  Except.error (PyExc.exc "Not implemented")

/-- `CacheBase.load_cache` (abstract base): `raise Exception("Not implemented")`. -/
def CacheBase_load_cache {V : Type} (_key : String) :
    Except PyExc (Option (Entry V)) :=
  Except.error (PyExc.exc "Not implemented")

/-- `CacheBase.exists_cache` (abstract base): `raise Exception("Not implemented")`. -/
def CacheBase_exists_cache (_key : String) : Except PyExc Bool :=
  Except.error (PyExc.exc "Not implemented")

/-- `CacheBase.delete_cache` (abstract base): `raise Exception("Not implemented")`. -/
def CacheBase_delete_cache (_key : String) : Except PyExc Unit :=
  Except.error (PyExc.exc "Not implemented")

/-- `CacheBase.keys` (abstract base): `raise Exception("Not implemented")`. -/
def CacheBase_keys : Except PyExc (List String) :=
  Except.error (PyExc.exc "Not implemented")

/-- A `try: ... except KeyError: pass` wrapper returning `dflt` when a
`KeyError` is caught; every other exception propagates. -/
def tryExceptKeyError {α : Type} (r : Except PyExc α) (dflt : α) :
    Except PyExc α :=
  match r with
  | .error (.keyError _) => .ok dflt
  | r => r

/-- `del self.data[key]` on a dict: removes the binding, raising `KeyError`
when the key is absent. -/
def dict_del {V : Type} (st : Store V) (k : String) : Except PyExc (Store V) :=
  match plookup st k with
  | some _ => .ok (delk st k)
  | none => .error (.keyError k)

/-- `MemoryCache.delete_cache`: `try: del self.data[key] except KeyError: pass`. -/
def MemoryCache_delete_cache {V : Type} (st : Store V) (k : String) :
    Except PyExc (Store V) :=
  tryExceptKeyError (dict_del st k) st

/-- `os.unlink` on the cache directory modelled as a store of files keyed
by cache key: removes the file, raising `FileNotFoundError` (an `OSError`,
not a `KeyError`) when the file does not exist. -/
def os_unlink {V : Type} (fs : Store V) (k : String) : Except PyExc (Store V) :=
  match plookup fs k with
  | some _ => .ok (delk fs k)
  | none => .error (.fileNotFoundError k)

/-- `FileCache.delete_cache`: `try: os.unlink(self.cache_file(key))
except KeyError: pass` — the except clause catches only `KeyError`, which
`os.unlink` never raises. -/
def FileCache_delete_cache {V : Type} (fs : Store V) (k : String) :
    Except PyExc (Store V) :=
  tryExceptKeyError (os_unlink fs k) fs

/-- The per-key probe of `need_refresh_items`: `load_cache(key)` followed
by the `timeout - grace < diff` test on the loaded entry's age. -/
def nriProbe {V : Type} (cfg : CacheCfg V) (now : ℚ) (st : Store V)
    (k : String) : Option (Entry V) :=
  match plookup st k with
  | some c =>
    if cfg.timeout - cfg.grace.getD 0 < now - c.created then some c else none
  | none => none

/-- `CacheBase.need_refresh_items` over the `MemoryCache` backend: nothing
when `self.grace` is falsy, else every stored entry (enumerated via
`keys()` and re-loaded via `load_cache`) whose age exceeds
`timeout - grace`. -/
def need_refresh_items {V : Type} (cfg : CacheCfg V) (now : ℚ)
    (st : Store V) : List (Entry V) :=
  if graceTruthy cfg.grace then (keysOf st).filterMap (nriProbe cfg now st)
  else []

/-- Outcome of `refresh_cache(fn)`: the argument pairs `fn` was invoked
with (in order), the values `fn` returned — which the code discards —, the
backend state afterwards, and the backend operations issued. -/
structure RefreshResult (V : Type) where
  calls : List (List PyVal × List (String × PyVal))
  discarded : List V
  state : Store V
  ops : List BOp

/-- `CacheBase.refresh_cache(fn)` over the `MemoryCache` backend: for each
entry yielded by `need_refresh_items`, call `fn(*cache["args"],
**cache["kwargs"])` and drop the result.  The only backend operations are
the key enumeration and the per-key loads inside `need_refresh_items`. -/
def refresh_cache {V : Type} (cfg : CacheCfg V)
    (fn : List PyVal → List (String × PyVal) → V) (now : ℚ) (st : Store V) :
    RefreshResult V :=
  { calls := (need_refresh_items cfg now st).map (fun c => (c.args, c.kwargs)),
    discarded := (need_refresh_items cfg now st).map (fun c => fn c.args c.kwargs),
    state := st,
    ops := BOp.enum :: (keysOf st).map BOp.get }

/-- Storing under a key makes that key's lookup return the stored entry. -/
theorem plookup_upd_self {α : Type} (st : List (String × α)) (k : String)
    (v : α) : plookup (upd st k v) k = some v := by
  induction st with
  | nil => simp [upd, plookup]
  | cons p rest ih =>
    by_cases h : p.1 = k
    · simp [upd, h, plookup]
    · simp [upd, h, plookup, ih]

/-- Concrete configuration used by the witnesses: `timeout=60`, no grace,
constant key function, default mode function. -/
def cfgW : CacheCfg Int :=
  { pfx := "p", timeout := 60, grace := none, keyfn := fun _ _ => "K",
    cachefn := default_cachefn, binary := false }

/-- Concrete wrapped function used by the witnesses: always returns 7. -/
def fnW : List PyVal → List (String × PyVal) → Except Unit Int :=
  fun _ _ => Except.ok 7

/-- A concrete stored entry used by the witnesses. -/
def e0 : Entry Int :=
  { key := "K", created := 0, value := 5, args := [], kwargs := [] }

/-- C4: a call whose derived mode is `NOCACHE` issues no backend operation
at all, leaves the backend state untouched, invokes the wrapped function
once on the positional args and the control-flag-stripped kwargs, and
returns exactly its outcome. -/
theorem c4_nocache_bypass {E V : Type} (cfg : CacheCfg V) (bin : V → V)
    (fn : List PyVal → List (String × PyVal) → Except E V) (now : ℚ)
    (st : Store V) (args : List PyVal) (kwargs : List (String × PyVal))
    (hmode : cfg.cachefn args kwargs = NOCACHE) :
    wrap cfg bin fn now st args kwargs =
      { result := fn args (key_from_args cfg args kwargs).2, state := st,
        ops := [], fnCalls := 1 } := by
  unfold wrap
  rw [hmode]
  simp

/-- C4 witness: with an entry stored under the call's key, a `_nocache`
call returns the function's value, issues no backend operation and leaves
the entry in place. -/
theorem c4_witness :
    wrap cfgW id fnW 0 [("K", e0)] [] [("_nocache", PyVal.bool true)] =
      { result := Except.ok 7, state := [("K", e0)], ops := [],
        fnCalls := 1 } :=
  c4_nocache_bypass cfgW id fnW 0 [("K", e0)] []
    [("_nocache", PyVal.bool true)] rfl

/-- C5: a call whose derived mode is `PRECACHE` performs no backend read,
invokes the wrapped function exactly once (whatever the backend holds),
issues exactly one put storing a fresh entry created at the current time
under the call's key — overwriting any entry there — and returns the
freshly computed (binary-coerced when configured) value. -/
theorem c5_precache_force {E V : Type} (cfg : CacheCfg V) (bin : V → V)
    (fn : List PyVal → List (String × PyVal) → Except E V) (now : ℚ)
    (st : Store V) (args : List PyVal) (kwargs : List (String × PyVal))
    (v : V) (hmode : cfg.cachefn args kwargs = PRECACHE)
    (hok : fn args (key_from_args cfg args kwargs).2 = Except.ok v) :
    wrap cfg bin fn now st args kwargs =
      { result := Except.ok (if cfg.binary then bin v else v),
        state := upd st (key_from_args cfg args kwargs).1
          { key := (key_from_args cfg args kwargs).1, created := now,
            value := if cfg.binary then bin v else v, args := args,
            kwargs := (key_from_args cfg args kwargs).2 },
        ops := [BOp.put (key_from_args cfg args kwargs).1],
        fnCalls := 1 } := by
  unfold wrap recomputeStep
  rw [hmode]
  simp [NOCACHE, PRECACHE, hok]

/-- C5 witness: a `_precache` call at time 10 with a live entry stored at
time 0 under the same key still recomputes, overwrites the entry with one
created at time 10, issues exactly one put and no read. -/
theorem c5_witness :
    wrap cfgW id fnW 10 [("K", e0)] [] [("_precache", PyVal.bool true)] =
      { result := Except.ok 7,
        state := [("K", { key := "K", created := 10, value := 7, args := [],
                          kwargs := [] })],
        ops := [BOp.put "K"], fnCalls := 1 } :=
  c5_precache_force cfgW id fnW 10 [("K", e0)] []
    [("_precache", PyVal.bool true)] 7 rfl rfl

/-- C1: with derived mode `CACHE` and a fresh key, the first call issues
exactly one get and one put and invokes the wrapped function once; a
second call with identical arguments whose age does not exceed `timeout`
issues exactly one get and no put, does not invoke the function, and
returns the identical stored value, leaving the state unchanged. -/
theorem c1_miss_then_hit {E V : Type} (cfg : CacheCfg V) (bin : V → V)
    (fn : List PyVal → List (String × PyVal) → Except E V)
    (now1 now2 : ℚ) (st : Store V) (args : List PyVal)
    (kwargs : List (String × PyVal)) (v : V)
    (hmode : cfg.cachefn args kwargs = CACHE)
    (hfresh : plookup st (key_from_args cfg args kwargs).1 = none)
    (hok : fn args (key_from_args cfg args kwargs).2 = Except.ok v)
    (hage : now2 - now1 ≤ cfg.timeout) :
    (wrap cfg bin fn now1 st args kwargs).ops =
      [BOp.get (key_from_args cfg args kwargs).1,
        BOp.put (key_from_args cfg args kwargs).1] ∧
    (wrap cfg bin fn now1 st args kwargs).fnCalls = 1 ∧
    (wrap cfg bin fn now2 (wrap cfg bin fn now1 st args kwargs).state args
        kwargs).ops = [BOp.get (key_from_args cfg args kwargs).1] ∧
    (wrap cfg bin fn now2 (wrap cfg bin fn now1 st args kwargs).state args
        kwargs).fnCalls = 0 ∧
    (wrap cfg bin fn now2 (wrap cfg bin fn now1 st args kwargs).state args
        kwargs).result = (wrap cfg bin fn now1 st args kwargs).result ∧
    (wrap cfg bin fn now2 (wrap cfg bin fn now1 st args kwargs).state args
        kwargs).state = (wrap cfg bin fn now1 st args kwargs).state := by
  have hage' : ¬ cfg.timeout < now2 - now1 := not_lt.mpr hage
  have h1 : wrap cfg bin fn now1 st args kwargs =
      { result := Except.ok (if cfg.binary then bin v else v),
        state := upd st (key_from_args cfg args kwargs).1
          { key := (key_from_args cfg args kwargs).1, created := now1,
            value := if cfg.binary then bin v else v, args := args,
            kwargs := (key_from_args cfg args kwargs).2 },
        ops := [BOp.get (key_from_args cfg args kwargs).1,
          BOp.put (key_from_args cfg args kwargs).1],
        fnCalls := 1 } := by
    unfold wrap recomputeStep
    rw [hmode]
    simp [CACHE, NOCACHE, PRECACHE, hfresh, hok]
  have h2 : wrap cfg bin fn now2
      (wrap cfg bin fn now1 st args kwargs).state args kwargs =
      { result := Except.ok (if cfg.binary then bin v else v),
        state := (wrap cfg bin fn now1 st args kwargs).state,
        ops := [BOp.get (key_from_args cfg args kwargs).1],
        fnCalls := 0 } := by
    rw [h1]
    unfold wrap
    rw [hmode]
    simp [CACHE, NOCACHE, PRECACHE, RECACHE, plookup_upd_self, hage']
  rw [h2, h1]
  simp

/-- C1 witness: a concrete miss-then-hit run — key fresh, first call at
time 0 recomputes (one get, one put, one fn call), second call at time 2
serves the stored value with one get, no put and no fn call. -/
theorem c1_witness :
    (wrap cfgW id fnW 0 [] [PyVal.int 1] []).ops =
      [BOp.get "K", BOp.put "K"] ∧
    (wrap cfgW id fnW 0 [] [PyVal.int 1] []).fnCalls = 1 ∧
    (wrap cfgW id fnW 2 (wrap cfgW id fnW 0 [] [PyVal.int 1] []).state
      [PyVal.int 1] []).fnCalls = 0 ∧
    (wrap cfgW id fnW 2 (wrap cfgW id fnW 0 [] [PyVal.int 1] []).state
      [PyVal.int 1] []).result =
      (wrap cfgW id fnW 0 [] [PyVal.int 1] []).result := by
  have h := c1_miss_then_hit cfgW id fnW 0 2 [] [PyVal.int 1] [] 7 rfl rfl
    rfl (by norm_num [cfgW])
  exact ⟨h.1, h.2.1, h.2.2.2.1, h.2.2.2.2.1⟩

/-- C2: with derived mode `RECACHE`, a truthy grace `g` and a stored entry
whose age does not exceed `timeout`, the call recomputes and re-stores
exactly when the age exceeds `timeout - g`, and serves the cached value
(one get, no put, no fn call) otherwise. -/
theorem c2_recache_grace {E V : Type} (cfg : CacheCfg V) (bin : V → V)
    (fn : List PyVal → List (String × PyVal) → Except E V) (now : ℚ)
    (st : Store V) (args : List PyVal) (kwargs : List (String × PyVal))
    (e : Entry V) (g : ℚ) (v : V)
    (hmode : cfg.cachefn args kwargs = RECACHE)
    (hg : cfg.grace = some g) (hg0 : g ≠ 0)
    (hentry : plookup st (key_from_args cfg args kwargs).1 = some e)
    (hage : now - e.created ≤ cfg.timeout)
    (hok : fn args (key_from_args cfg args kwargs).2 = Except.ok v) :
    (cfg.timeout - g < now - e.created →
      wrap cfg bin fn now st args kwargs =
        { result := Except.ok (if cfg.binary then bin v else v),
          state := upd st (key_from_args cfg args kwargs).1
            { key := (key_from_args cfg args kwargs).1, created := now,
              value := if cfg.binary then bin v else v, args := args,
              kwargs := (key_from_args cfg args kwargs).2 },
          ops := [BOp.get (key_from_args cfg args kwargs).1,
            BOp.put (key_from_args cfg args kwargs).1],
          fnCalls := 1 }) ∧
    (¬ cfg.timeout - g < now - e.created →
      wrap cfg bin fn now st args kwargs =
        { result := Except.ok e.value, state := st,
          ops := [BOp.get (key_from_args cfg args kwargs).1],
          fnCalls := 0 }) := by
  have hage' : ¬ cfg.timeout < now - e.created := not_lt.mpr hage
  constructor
  · intro hthr
    unfold wrap recomputeStep
    rw [hmode]
    simp [RECACHE, NOCACHE, PRECACHE, hentry, hok, hg, hg0, hage', hthr,
      graceTruthy]
  · intro hthr
    unfold wrap
    rw [hmode]
    simp [RECACHE, NOCACHE, PRECACHE, hentry, hg, hg0, hage', hthr,
      graceTruthy]

/-- Concrete configuration with `timeout=60`, `grace=15` for the C2
witness. -/
def cfg2 : CacheCfg Int :=
  { pfx := "p", timeout := 60, grace := some 15, keyfn := fun _ _ => "K",
    cachefn := default_cachefn, binary := false }

/-- C2 witness: with `timeout=60`, `grace=15` and an entry created at time
0, a `_recache` call at time 44 serves the cached value, and one at time
46 recomputes and re-stores. -/
theorem c2_witness :
    wrap cfg2 id fnW 44 [("K", e0)] [] [("_recache", PyVal.bool true)] =
      { result := Except.ok 5, state := [("K", e0)], ops := [BOp.get "K"],
        fnCalls := 0 } ∧
    wrap cfg2 id fnW 46 [("K", e0)] [] [("_recache", PyVal.bool true)] =
      { result := Except.ok 7,
        state := [("K", { key := "K", created := 46, value := 7,
                          args := [], kwargs := [] })],
        ops := [BOp.get "K", BOp.put "K"], fnCalls := 1 } := by
  constructor
  · exact (c2_recache_grace cfg2 id fnW 44 [("K", e0)] []
      [("_recache", PyVal.bool true)] e0 15 7 rfl rfl (by norm_num) rfl
      (by norm_num [cfg2, e0]) rfl).2 (by norm_num [cfg2, e0])
  · exact (c2_recache_grace cfg2 id fnW 46 [("K", e0)] []
      [("_recache", PyVal.bool true)] e0 15 7 rfl rfl (by norm_num) rfl
      (by norm_num [cfg2, e0]) rfl).1 (by norm_num [cfg2, e0])

/-- C6: on any invocation that reaches the recompute arm, if the wrapped
function raises, the exception is returned unchanged, the backend state is
exactly what it was before the call, and no put is issued. -/
theorem c6_error_propagation {E V : Type} (cfg : CacheCfg V) (bin : V → V)
    (fn : List PyVal → List (String × PyVal) → Except E V) (now : ℚ)
    (st : Store V) (args : List PyVal) (kwargs : List (String × PyVal))
    (e : E) (hre : reaches_recompute cfg now st args kwargs = true)
    (herr : fn args (key_from_args cfg args kwargs).2 = Except.error e) :
    (wrap cfg bin fn now st args kwargs).result = Except.error e ∧
    (wrap cfg bin fn now st args kwargs).state = st ∧
    ∀ k, BOp.put k ∉ (wrap cfg bin fn now st args kwargs).ops := by
  unfold reaches_recompute at hre
  unfold wrap recomputeStep
  by_cases hno : cfg.cachefn args kwargs = NOCACHE
  · simp [hno] at hre
  · by_cases hpre : cfg.cachefn args kwargs = PRECACHE
    · simp [hno, hpre, herr]
    · cases hcache : plookup st (key_from_args cfg args kwargs).1 with
      | none => simp [hno, hpre, hcache, herr]
      | some c =>
        simp [hno, hpre, hcache] at hre
        by_cases h1 : cfg.timeout < now - c.created
        · simp [hno, hpre, hcache, h1, herr]
        · rcases hre with h1' | hrec
          · exact absurd h1' h1
          · obtain ⟨⟨hA, hB⟩, hC⟩ := hrec
            simp [hno, hpre, hcache, h1, hA, hB, hC, herr, RECACHE,
              NOCACHE, PRECACHE]

/-- Concrete always-raising wrapped function for the C6 witness. -/
def fnE : List PyVal → List (String × PyVal) → Except Unit Int :=
  fun _ _ => Except.error ()

/-- C6 witness: a cache miss whose recompute raises returns the exception,
leaves the (empty) backend state unchanged and issues no put. -/
theorem c6_witness :
    (wrap cfgW id fnE 0 [] [] []).result = Except.error () ∧
    (wrap cfgW id fnE 0 [] [] []).state = [] ∧
    BOp.put "K" ∉ (wrap cfgW id fnE 0 [] [] []).ops := by
  have h := c6_error_propagation cfgW id fnE 0 [] [] [] () rfl rfl
  exact ⟨h.1, h.2.1, h.2.2 "K"⟩

/-- C7 counterexample: the abstract base's `update_cache` does fail
immediately, but with the generic built-in `Exception("Not implemented")`
— not with `NotImplementedError` as the claim states. -/
theorem c7_counterexample :
    CacheBase_update_cache (V := Int) "k" e0 =
      Except.error (PyExc.exc "Not implemented") ∧
    raisesNotImplementedError (CacheBase_update_cache (V := Int) "k" e0) =
      false :=
  ⟨rfl, rfl⟩

/-- C7 (amended): invoking any of the five storage operations on the
abstract backend base class fails by raising the generic built-in
`Exception` with message "Not implemented" (not `NotImplementedError`),
surfaced immediately to the caller and never retried. -/
theorem c7_amended (V : Type) :
    (∀ (k : String) (c : Entry V), CacheBase_update_cache k c =
      Except.error (PyExc.exc "Not implemented")) ∧
    (∀ k : String, CacheBase_load_cache (V := V) k =
      Except.error (PyExc.exc "Not implemented")) ∧
    (∀ k : String, CacheBase_exists_cache k =
      Except.error (PyExc.exc "Not implemented")) ∧
    (∀ k : String, CacheBase_delete_cache k =
      Except.error (PyExc.exc "Not implemented")) ∧
    CacheBase_keys = Except.error (PyExc.exc "Not implemented") :=
  ⟨fun _ _ => rfl, fun _ => rfl, fun _ => rfl, fun _ => rfl, rfl⟩

/-- C8: `MemoryCache.delete_cache` on a missing key is a silent no-op
(its `except KeyError` catches the dict's `KeyError`), but
`FileCache.delete_cache` on a missing key raises: `os.unlink` raises
`FileNotFoundError`, which the `except KeyError` clause does not catch —
so deletion of a nonexistent key is NOT a silent no-op for every backend
adapter. -/
theorem c8_filecache_delete_missing_raises :
    MemoryCache_delete_cache ([] : Store Int) "k" = Except.ok [] ∧
    MemoryCache_delete_cache [("K", e0)] "k" = Except.ok [("K", e0)] ∧
    MemoryCache_delete_cache (delk [("K", e0)] "K") "K" = Except.ok [] ∧
    FileCache_delete_cache ([] : Store Int) "k" =
      Except.error (PyExc.fileNotFoundError "k") ∧
    FileCache_delete_cache (delk [("K", e0)] "K") "K" =
      Except.error (PyExc.fileNotFoundError "K") :=
  ⟨rfl, rfl, rfl, rfl, rfl⟩

/-- C9: `refresh_cache(fn)` leaves the stored cache state (every key and
entry) unchanged, invokes `fn` exactly once per entry needing refresh —
passing that entry's stored args and kwargs, with every returned value
discarded — and issues no backend write (no put, no delete). -/
theorem c9_refresh_frame {V : Type} (cfg : CacheCfg V)
    (fn : List PyVal → List (String × PyVal) → V) (now : ℚ) (st : Store V) :
    (refresh_cache cfg fn now st).state = st ∧
    (refresh_cache cfg fn now st).calls =
      (need_refresh_items cfg now st).map (fun c => (c.args, c.kwargs)) ∧
    (refresh_cache cfg fn now st).discarded =
      (need_refresh_items cfg now st).map (fun c => fn c.args c.kwargs) ∧
    ∀ op ∈ (refresh_cache cfg fn now st).ops,
      (∀ k, op ≠ BOp.put k) ∧ (∀ k, op ≠ BOp.del k) := by
  refine ⟨rfl, rfl, rfl, ?_⟩
  intro op hop
  unfold refresh_cache at hop
  simp only [List.mem_cons, List.mem_map] at hop
  rcases hop with h | ⟨k, _, h⟩ <;> subst h <;>
    refine ⟨fun k2 hk2 => ?_, fun k2 hk2 => ?_⟩ <;> cases hk2

/-- `filterMap` only depends on the function's values on the list's
members. -/
theorem filterMap_congr_mem {α β : Type} {f g : α → Option β} :
    ∀ l : List α, (∀ a ∈ l, f a = g a) → l.filterMap f = l.filterMap g := by
  intro l
  induction l with
  | nil => intro _; rfl
  | cons a l ih =>
    intro h
    rw [List.filterMap_cons, List.filterMap_cons, h a (by simp),
      ih (fun b hb => h b (by simp [hb]))]

/-- Enumerating a nodup-keyed store and re-loading each key, keeping the
entries past the refresh threshold, is filtering the stored entries by
that threshold. -/
theorem nri_eq {V : Type} (cfg : CacheCfg V) (now : ℚ) :
    ∀ st : Store V, (keysOf st).Nodup →
      (keysOf st).filterMap (nriProbe cfg now st) =
        (st.map Prod.snd).filter
          (fun c => decide (cfg.timeout - cfg.grace.getD 0 < now - c.created)) := by
  intro st
  induction st with
  | nil => intro _; rfl
  | cons p rest ih =>
    intro hnd
    have hnd2 : (p.1 :: keysOf rest).Nodup := hnd
    have hmem : p.1 ∉ keysOf rest := (List.nodup_cons.mp hnd2).1
    have hnd' : (keysOf rest).Nodup := (List.nodup_cons.mp hnd2).2
    have htail : (keysOf rest).filterMap (nriProbe cfg now (p :: rest)) =
        (keysOf rest).filterMap (nriProbe cfg now rest) := by
      apply filterMap_congr_mem
      intro k hk
      have hne : p.1 ≠ k := fun h => hmem (h ▸ hk)
      simp [nriProbe, plookup, hne]
    have hhead : nriProbe cfg now (p :: rest) p.1 =
        if cfg.timeout - cfg.grace.getD 0 < now - p.2.created then some p.2
        else none := by
      simp [nriProbe, plookup]
    show List.filterMap (nriProbe cfg now (p :: rest)) (p.1 :: keysOf rest) =
      List.filter _ (p.2 :: rest.map Prod.snd)
    rw [List.filterMap_cons, hhead]
    by_cases hthr : cfg.timeout - cfg.grace.getD 0 < now - p.2.created
    · rw [if_pos hthr, htail, ih hnd']
      simp [List.filter_cons, hthr]
    · rw [if_neg hthr, htail, ih hnd']
      simp [List.filter_cons, hthr]

/-- C10: with a truthy grace `g`, `need_refresh_items` yields exactly the
stored entries whose age strictly exceeds `timeout - g`, with no upper
bound — in particular every entry already past hard expiry is yielded
when `g` is positive; with grace unset or zero it yields nothing. -/
theorem c10_need_refresh_characterization {V : Type} (cfg : CacheCfg V)
    (now : ℚ) (st : Store V) (hnd : (keysOf st).Nodup) :
    (graceTruthy cfg.grace = false → need_refresh_items cfg now st = []) ∧
    (∀ g : ℚ, cfg.grace = some g → g ≠ 0 →
      need_refresh_items cfg now st =
        (st.map Prod.snd).filter
          (fun c => decide (cfg.timeout - g < now - c.created))) ∧
    (∀ g : ℚ, cfg.grace = some g → 0 < g → ∀ p ∈ st,
      cfg.timeout < now - p.2.created →
      p.2 ∈ need_refresh_items cfg now st) := by
  have hchr : ∀ g : ℚ, cfg.grace = some g → g ≠ 0 →
      need_refresh_items cfg now st =
        (st.map Prod.snd).filter
          (fun c => decide (cfg.timeout - g < now - c.created)) := by
    intro g hg hg0
    have ht : graceTruthy cfg.grace = true := by simp [graceTruthy, hg, hg0]
    unfold need_refresh_items
    rw [ht, if_pos rfl, nri_eq cfg now st hnd, hg]
    rfl
  refine ⟨?_, hchr, ?_⟩
  · intro h
    unfold need_refresh_items
    rw [h]
    rfl
  · intro g hg hgpos p hp hexp
    rw [hchr g hg (ne_of_gt hgpos)]
    refine List.mem_filter.mpr ⟨List.mem_map.mpr ⟨p, hp, rfl⟩, ?_⟩
    exact decide_eq_true (lt_trans (sub_lt_self cfg.timeout hgpos) hexp)

/-- A stored entry inside the grace window, for the C10 witness. -/
def eA : Entry Int :=
  { key := "A", created := 56, value := 1, args := [], kwargs := [] }

/-- A stored entry already past hard expiry, for the C10 witness. -/
def eB : Entry Int :=
  { key := "B", created := 30, value := 2, args := [], kwargs := [] }

/-- C10 witness: with `timeout=60`, `grace=15` at time 100, the entry of
age 44 (below the threshold 45) is not yielded, while the entry of age 70
— already past the hard expiry of 60 — is yielded. -/
theorem c10_witness :
    need_refresh_items cfg2 100 [("A", eA), ("B", eB)] = [eB] ∧
    eB ∈ need_refresh_items cfg2 100 [("A", eA), ("B", eB)] := by
  have h := c10_need_refresh_characterization cfg2 100 [("A", eA), ("B", eB)]
    (by decide)
  constructor
  · rw [h.2.1 15 rfl (by norm_num)]
    norm_num [cfg2, eA, eB, List.filter_cons]
  · exact h.2.2 15 rfl (by norm_num) ("B", eB) (by simp)
      (by norm_num [cfg2, eB])

/-- Dict lookup is invariant under permutation of a nodup-keyed
association list. -/
theorem plookup_eq_of_perm {α : Type} {l1 l2 : List (String × α)}
    (hp : l1.Perm l2) :
    (l1.map Prod.fst).Nodup → ∀ k, plookup l1 k = plookup l2 k := by
  induction hp with
  | nil => intro _ k; rfl
  | cons x hp ih =>
    intro hnd k
    have hnd' := (List.nodup_cons.mp hnd).2
    by_cases h : x.1 = k
    · simp [plookup, h]
    · simp [plookup, h, ih hnd' k]
  | swap x y l =>
    intro hnd k
    have h0 := List.nodup_cons.mp hnd
    have hxy : y.1 ≠ x.1 := by
      intro h
      exact h0.1 (h ▸ List.mem_cons_self x.1 (l.map Prod.fst))
    by_cases h1 : y.1 = k
    · by_cases h2 : x.1 = k
      · exact absurd (h1.trans h2.symm) hxy
      · simp [plookup, h1, h2]
    · by_cases h2 : x.1 = k <;> simp [plookup, h1, h2]
  | trans hp1 hp2 ih1 ih2 =>
    intro hnd k
    have hnd2 := ((hp1.map Prod.fst).nodup_iff).mp hnd
    rw [ih1 hnd k, ih2 hnd2 k]

/-- Python's `sorted` gives the same string list on any two permutations
of each other. -/
theorem sortStrings_eq_of_perm {l1 l2 : List String} (hp : l1.Perm l2) :
    sortStrings l1 = sortStrings l2 :=
  List.eq_of_perm_of_sorted
    ((List.perm_insertionSort _ l1).trans
      (hp.trans (List.perm_insertionSort _ l2).symm))
    (List.sorted_insertionSort _ l1) (List.sorted_insertionSort _ l2)

/-- The md5 input of the default key function is invariant under
permutation of a nodup-keyed kwargs dict. -/
theorem hashInput_eq {kw1 kw2 : List (String × PyVal)} (args : List PyVal)
    (hp : kw1.Perm kw2) (hnd : (kw1.map Prod.fst).Nodup) :
    hashInput args kw1 = hashInput args kw2 := by
  unfold hashInput
  have hkeys : sortStrings (keysOf kw1) = sortStrings (keysOf kw2) :=
    sortStrings_eq_of_perm (hp.map Prod.fst)
  have hfun : (fun k => k ++ pyStr ((plookup kw1 k).getD (.str ""))) =
      (fun k => k ++ pyStr ((plookup kw2 k).getD (.str ""))) :=
    funext fun k => by rw [plookup_eq_of_perm hp hnd k]
  rw [hkeys, hfun]

/-- C3: with the default key function, the derived key is a pure function
of the positional args and the control-flag-stripped kwargs dict — any two
kwargs dicts whose stripped forms hold the same bindings (in any insertion
order) give the same key, for every choice of md5 model `h`; and
prepending any reserved control flag to kwargs never changes the key. -/
theorem c3_key_purity {V : Type} (cfg : CacheCfg V) (h : String → String)
    (hkey : cfg.keyfn = arg_hash_gen h []) :
    (∀ (args : List PyVal) (kw1 kw2 : List (String × PyVal)),
      (strippedK kw1).Perm (strippedK kw2) →
      ((strippedK kw1).map Prod.fst).Nodup →
      (key_from_args cfg args kw1).1 = (key_from_args cfg args kw2).1) ∧
    (∀ (args : List PyVal) (kw : List (String × PyVal)) (f : String)
      (v : PyVal), f ∈ reservedFlags →
      (key_from_args cfg args ((f, v) :: kw)).1 =
        (key_from_args cfg args kw).1) := by
  constructor
  · intro args kw1 kw2 hp hnd
    simp only [key_from_args, hkey, arg_hash_gen]
    exact congrArg h (hashInput_eq args hp hnd)
  · intro args kw f v hf
    have hc : reservedFlags.contains f = true := by
      simp [reservedFlags] at hf
      rcases hf with rfl | rfl | rfl <;> rfl
    have hs : strippedK ((f, v) :: kw) = strippedK kw := by
      simp [strippedK, List.filter_cons, hc, hf]
    simp [key_from_args, hs]

/-- Concrete configuration with the default key function (md5 modelled by
the identity) for the C3 witness. -/
def cfg3 : CacheCfg Int :=
  { pfx := "p", timeout := 60, grace := none, keyfn := arg_hash_gen id [],
    cachefn := default_cachefn, binary := false }

/-- C3 witness: reordering the kwargs and adding a `_nocache` flag leaves
the derived key unchanged, as does prepending `_precache`. -/
theorem c3_witness :
    (key_from_args cfg3 [PyVal.int 1]
      [("b", PyVal.int 2), ("a", PyVal.int 1)]).1 =
      (key_from_args cfg3 [PyVal.int 1]
        [("a", PyVal.int 1), ("b", PyVal.int 2),
          ("_nocache", PyVal.bool true)]).1 ∧
    (key_from_args cfg3 [PyVal.int 1]
      [("_precache", PyVal.bool true), ("x", PyVal.int 3)]).1 =
      (key_from_args cfg3 [PyVal.int 1] [("x", PyVal.int 3)]).1 := by
  have h := c3_key_purity cfg3 id rfl
  exact ⟨h.1 [PyVal.int 1] [("b", PyVal.int 2), ("a", PyVal.int 1)]
      [("a", PyVal.int 1), ("b", PyVal.int 2), ("_nocache", PyVal.bool true)]
      (by decide) (by decide),
    h.2 [PyVal.int 1] [("x", PyVal.int 3)] "_precache" (PyVal.bool true)
      (by decide)⟩

end Cachelib
